import Mathlib

/-!
Verification of the gcs-client chunked transfer engine, retry policy and
lazy resource proxy.

Shallow embedding of the relevant parts of `gcs_client/gcs_object.py`,
`gcs_client/common.py`, `gcs_client/errors.py` and `gcs_client/base.py`.
Bytes are modelled as `Nat`, byte strings as `List Nat`.
-/

namespace GcsClient

/-! ### `_Buffer` (gcs_object.py, class `_Buffer`)

The buffer keeps a deque of byte spans (`_queue`) plus a running total
(`_size`).  `write` appends a span (no-op on empty data), `read` removes
up to `size` bytes from the front, splitting the leading span when the
request falls inside it, `clear` discards everything. -/

structure Buffer where
  queue : List (List Nat)
  size : Nat
deriving DecidableEq, Repr

def Buffer.empty : Buffer := ⟨[], 0⟩

/-- Model of `_Buffer.write(data)`: `if data: queue.append(data); size += len(data)`. -/
def Buffer.write (b : Buffer) (data : List Nat) : Buffer :=
  if data = [] then b else ⟨b.queue ++ [data], b.size + data.length⟩

/-- Model of `_Buffer.clear()`. -/
def Buffer.clear (_b : Buffer) : Buffer := ⟨[], 0⟩

/-- The `while remaining:` loop of `_Buffer.read`: pop spans from the front
of the queue; a span longer than what remains is split, the tail being
pushed back on the front.  Returns the bytes read and the new queue.
(The `[], _+1` case is the path where CPython would raise `IndexError` on
`popleft()`; it is unreachable when `size` equals the queued byte count.) -/
def bufReadLoop : List (List Nat) → Nat → List Nat × List (List Nat)
  | q, 0 => ([], q)
  | [], _ + 1 => ([], [])
  | d :: q, r + 1 =>
    if r + 1 < d.length then
      (d.take (r + 1), d.drop (r + 1) :: q)
    else
      let p := bufReadLoop q (r + 1 - d.length)
      (d ++ p.1, p.2)

/-- Model of `_Buffer.read(size=None)`: `if size is None or size > self._size:
size = self._size`, then the pop loop, then `self._size -= size`. -/
def Buffer.read (b : Buffer) (size : Option Nat) : List Nat × Buffer :=
  let sz := match size with
    | none => b.size
    | some n => if b.size < n then b.size else n
  let p := bufReadLoop b.queue sz
  (p.1, ⟨p.2, b.size - sz⟩)

/-- All buffered bytes in order (concatenation of the queued spans). -/
def Buffer.contents (b : Buffer) : List Nat := b.queue.flatten

/-- The `_Buffer` invariant: `_size` equals the total queued byte count. -/
def Buffer.wf (b : Buffer) : Prop := b.size = b.contents.length

instance (b : Buffer) : Decidable b.wf := by unfold Buffer.wf; infer_instance

/-- Fold a list of writes into a buffer (a sequence of `write` calls). -/
def writeAll (b : Buffer) (ws : List (List Nat)) : Buffer :=
  ws.foldl Buffer.write b

/-- Perform a sequence of `read` calls, collecting the returned byte
strings and the final buffer. -/
def readAll (b : Buffer) : List (Option Nat) → List (List Nat) × Buffer
  | [] => ([], b)
  | s :: ss =>
    let p := b.read s
    let q := readAll p.2 ss
    (p.1 :: q.1, q.2)

/-! ### Retry policy (common.py `RetryParams` and `retry`, errors.py)

The `retry` decorator catches `gcs_errors.Http` exceptions; an operation is
modelled as `op : Nat → Except Nat α`, giving for each attempt index either
a success value or the status code of the raised HTTP error.  `retryGo`
mirrors the `while True` loop: `n` is the retry counter, `delay` the
current delay.  It returns the final result, the list of `time.sleep`
arguments, and the number of invocations of the operation.  `jitter i`
stands for the value of `random.random() * initial_delay` drawn before the
`i`-th retry (used only when `randomize` is set). -/

structure RetryParams where
  max_retries : Nat
  initial_delay : Nat
  max_backoff : Nat
  backoff_factor : Nat
  randomize : Bool
deriving DecidableEq, Repr

/-- Model of `DEFAULT_RETRY_CODES`: the status codes mapped to `Transient` in
`errors.http_errors` (408, 500, 502, 503, 504, 429). -/
def DEFAULT_RETRY_CODES : List Nat := [408, 500, 502, 503, 504, 429]

/-- The `while True` loop of `retry.wrapped` for a non-`None` policy:
on an `Http` error, re-raise if `n >= max_retries` or the code is not in
`error_codes`; otherwise increment `n`, recompute the delay when it has
not yet reached `max_backoff`, sleep, and try again. -/
def retryGo (p : RetryParams) (error_codes : List Nat) (op : Nat → Except Nat α)
    (jitter : Nat → Nat) (n delay : Nat) : Except Nat α × List Nat × Nat :=
  match op n with
  | .ok a => (.ok a, [], 1)
  | .error c =>
    if p.max_retries ≤ n ∨ c ∉ error_codes then (.error c, [], 1)
    else
      let d := if delay < p.max_backoff
               then min p.max_backoff (p.backoff_factor ^ n * p.initial_delay)
               else delay
      let s := d + (if p.randomize then jitter (n + 1) else 0)
      let rest := retryGo p error_codes op jitter (n + 1) d
      (rest.1, s :: rest.2.1, rest.2.2 + 1)
termination_by p.max_retries - n
decreasing_by
  rename_i hguard
  push_neg at hguard
  omega

/-- Model of `retry.wrapped`: a `None` policy raises the first `Http` error without
any retry; otherwise run the loop with `n = 0` and `delay = 0`. -/
def retryCall (p : Option RetryParams) (error_codes : List Nat)
    (op : Nat → Except Nat α) (jitter : Nat → Nat) :
    Except Nat α × List Nat × Nat :=
  match p with
  | none =>
    match op 0 with
    | .ok a => (.ok a, [], 1)
    | .error c => (.error c, [], 1)
  | some params => retryGo params error_codes op jitter 0 0

/-- The delay value held by the loop's `delay` variable after the `n`-th
failure (`delaySeq p 0 = 0` is the initial value before any retry). -/
def delaySeq (p : RetryParams) : Nat → Nat
  | 0 => 0
  | n + 1 =>
    let d := delaySeq p n
    if d < p.max_backoff then min p.max_backoff (p.backoff_factor ^ n * p.initial_delay)
    else d

/-! ### Lazy resource proxy (base.py, class `Fillable`)

Attribute values are modelled by `Val` (enough structure to express the
single-key-dict unwrapping of `_fill_with_data`).  A `Fillable` instance
carries the fetched-attribute mapping `_gcs_attrs` (consulted first by
`__getattribute__`), the ordinary instance `__dict__`, and the
`_data_retrieved` / `_exists` bookkeeping.  The outcome of the remote
`_get_data()` call is an oracle value `FetchRes`. -/

inductive Val where
  | str : String → Val
  | num : Int → Val
  | vdict : List (String × Val) → Val

/-- Model of `_fill_with_data`'s unwrapping: a single-entry dict value is replaced
by its only value; everything else is kept as-is. -/
def unwrapVal : Val → Val
  | .vdict [kv] => kv.2
  | v => v

/-- Association-list lookup (python dict read). -/
def alookup (l : List (String × Val)) (k : String) : Option Val :=
  (l.find? (fun p => p.1 = k)).map (·.2)

/-- Association-list update (python dict write). -/
def aset : List (String × Val) → String → Val → List (String × Val)
  | [], k, v => [(k, v)]
  | (k', v') :: t, k, v =>
    if k' = k then (k, v) :: t else (k', v') :: aset t k v

structure Fillable where
  gcs_attrs : List (String × Val)
  idict : List (String × Val)
  data_retrieved : Bool
  existsF : Option Bool

/-- A freshly constructed `Fillable`: empty `_gcs_attrs`,
`_data_retrieved = False`, `_exists = None`. -/
def Fillable.fresh : Fillable := ⟨[], [], false, none⟩

/-- Model of `Fillable.__setattr__(name, value)` with `force_gcs = False`: write to
`_gcs_attrs` when the name is already a fetched attribute, otherwise to
the instance `__dict__`. -/
def Fillable.setAttr (f : Fillable) (k : String) (v : Val) : Fillable :=
  if (alookup f.gcs_attrs k).isSome then
    { f with gcs_attrs := aset f.gcs_attrs k v }
  else
    { f with idict := aset f.idict k v }

/-- Model of `Fillable._fill_with_data(data)`: set `_data_retrieved` and store every
(unwrapped) key/value pair into `_gcs_attrs` via
`__setattr__(k, v, force_gcs=True)`. -/
def Fillable.fillWithData (f : Fillable) (data : List (String × Val)) : Fillable :=
  { f with data_retrieved := true,
           gcs_attrs := data.foldl (fun g kv => aset g kv.1 (unwrapVal kv.2))
             f.gcs_attrs }

/-- Model of `Fillable.__getattribute__`: `_gcs_attrs` first, then the ordinary
lookup (instance `__dict__`). -/
def Fillable.lookupAttr (f : Fillable) (k : String) : Option Val :=
  match alookup f.gcs_attrs k with
  | some v => some v
  | none => alookup f.idict k

/-- Outcome of the remote `_get_data()` call. -/
inductive FetchRes where
  | success : List (String × Val) → FetchRes
  | notFound : FetchRes
  | httpFail : Nat → FetchRes

/-- Result of an attribute access. -/
inductive AttrOutcome where
  | ok : Val → AttrOutcome
  | attrError : AttrOutcome
  | raised : Nat → AttrOutcome

/-- Model of `getattr(f, k)`: `__getattribute__`, falling back to
`Fillable.__getattr__` which may fetch.  Returns the outcome, the
new state, and the number of `_get_data()` calls performed. -/
def Fillable.getAttr (f : Fillable) (k : String) (fetch : FetchRes) :
    AttrOutcome × Fillable × Nat :=
  match f.lookupAttr k with
  | some v => (.ok v, f, 0)
  | none =>
    if f.data_retrieved = true ∨ f.existsF = some false then (.attrError, f, 0)
    else
      match fetch with
      | .notFound => (.attrError, { f with existsF := some false }, 1)
      | .httpFail c => (.raised c, f, 1)
      | .success data =>
        let f' := Fillable.fillWithData { f with existsF := some true } data
        match f'.lookupAttr k with
        | some v => (.ok v, f', 1)
        | none => (.attrError, f', 1)

/-! ### GCSObjFile (gcs_object.py, class `GCSObjFile`)

The file handle state: `mode`, client-tracked `size`, user-visible cursor
`_offset`, remote cursor `_gcs_offset`, the `_Buffer`, `_eof`, `closed`,
and `_chunksize`.  Remote interaction is modelled by the requests a call
would issue (`SendReq` for uploads) or by a compliant server holding the
object's bytes (for downloads). -/

inductive Mode where
  | r
  | w
deriving DecidableEq, Repr

inductive IOErr where
  | closed
  | modeMismatch
deriving DecidableEq, Repr

structure GCSObjFile where
  mode : Mode
  size : Nat
  offset : Nat
  gcs_offset : Nat
  buffer : Buffer
  eof : Bool
  closed : Bool
  chunksize : Nat
deriving DecidableEq, Repr

def BLOCK_MULTIPLE : Int := 256 * 1024

def DEFAULT_BLOCK_SIZE : Int := 4 * BLOCK_MULTIPLE

/-- Chunk-size handling in `GCSObjFile.__init__`: `self._chunksize =
chunksize or DEFAULT_BLOCK_SIZE` (`None` and `0` are falsy) followed by
`assert self._chunksize % BLOCK_MULTIPLE == 0`; `.error ()` is the
`AssertionError` path.  Python's `%` on a positive modulus agrees with
`Int.emod`. -/
def initChunksize (chunksize : Option Int) : Except Unit Int :=
  let cs : Int := match chunksize with
    | none => DEFAULT_BLOCK_SIZE
    | some c => if c = 0 then DEFAULT_BLOCK_SIZE else c
  if cs % BLOCK_MULTIPLE = 0 then .ok cs else .error ()

inductive Whence where
  | set
  | cur
  | endW
deriving DecidableEq, Repr

/-- Model of `GCSObjFile.tell()`. -/
def GCSObjFile.tell (f : GCSObjFile) : Except IOErr Nat :=
  if f.closed then .error .closed else .ok f.offset

/-- Model of `GCSObjFile.seek(offset, whence)`: open check, then readable check
(write mode raises), compute the target position, clamp to
`[0, self.size]`, set both cursors and clear the buffer. -/
def GCSObjFile.seek (f : GCSObjFile) (off : Int) (wh : Whence) :
    Except IOErr GCSObjFile :=
  if f.closed then .error .closed
  else if f.mode = Mode.w then .error .modeMismatch
  else
    let position : Int := match wh with
      | .set => off
      | .cur => (f.offset : Int) + off
      | .endW => (f.size : Int) + off
    let position := min position (f.size : Int)
    let position := max position 0
    .ok { f with offset := position.toNat, gcs_offset := position.toNat,
                 buffer := f.buffer.clear }

/-- The `Content-Range` header of an upload request: `bytes b-e/total`
(`total = none` renders `*`), or the finalize-only form `bytes */total`. -/
inductive CRange where
  | full : Nat → Nat → Option Nat → CRange
  | starTotal : Nat → CRange
deriving DecidableEq, Repr

/-- One chunk-upload PUT: its `Content-Range`, body, and the status code
the client requires (`308 Resume Incomplete` or `200 OK`). -/
structure SendReq where
  range : CRange
  body : List Nat
  expected : Nat
deriving DecidableEq, Repr

/-- Model of `GCSObjFile._send_data(data, begin, finalize)`: no-op when `data` is
empty and `finalize` is not set; `bytes */size` with empty body and
expected 200 when only finalizing; otherwise `bytes begin-end/size-or-*`
with expected 200 when final, 308 when not. -/
def sendData (size : Nat) (data : List Nat) (start : Nat) (finalize : Bool) :
    Option SendReq :=
  if data = [] ∧ finalize = false then none
  else if data = [] then some ⟨CRange.starTotal size, [], 200⟩
  else
    some ⟨CRange.full start (start + data.length - 1)
            (if finalize then some size else none),
          data, if finalize then 200 else 308⟩

/-- The `while len(self._buffer) >= self._chunksize:` loop of
`GCSObjFile.write`: pop one `chunksize` chunk at a time, recording the
remote offset each is sent at.  `0 < cs` (guaranteed by `__init__`) is
needed for termination. -/
def flushLoop (cs : Nat) (hcs : 0 < cs) (gcs : Nat) (b : Buffer) :
    List (Nat × List Nat) × Buffer × Nat :=
  if _h : cs ≤ b.size then
    let p := b.read (some cs)
    let rest := flushLoop cs hcs (gcs + p.1.length) p.2
    ((gcs, p.1) :: rest.1, rest.2)
  else ([], b, gcs)
termination_by b.size
decreasing_by
  show (b.read (some cs)).2.size < b.size
  simp only [Buffer.read]
  split <;> omega

/-- Model of `GCSObjFile.write(data)`: mode and open checks, `self.size +=
len(data)`, buffer the data, then flush full chunks, each as a non-final
`_send_data` at the current remote offset.  Returns the issued requests
and the new state. -/
def GCSObjFile.write (f : GCSObjFile) (data : List Nat) (hcs : 0 < f.chunksize) :
    Except IOErr (List SendReq × GCSObjFile) :=
  if f.closed then .error .closed
  else if f.mode = Mode.r then .error .modeMismatch
  else
    let sz := f.size + data.length
    let r := flushLoop f.chunksize hcs f.gcs_offset (f.buffer.write data)
    .ok (r.1.filterMap (fun c => sendData sz c.2 c.1 false),
         { f with size := sz, buffer := r.2.1, gcs_offset := r.2.2 })

/-- Model of `GCSObjFile.close()`: if not closed and writable, send all remaining
buffered bytes (`self._buffer.read()`) as the final chunk; mark closed.
Returns the finalize request (if any was issued) and the new state. -/
def GCSObjFile.close (f : GCSObjFile) : Option SendReq × GCSObjFile :=
  if f.closed then (none, f)
  else if f.mode = Mode.w then
    let p := f.buffer.read none
    (sendData f.size p.1 f.gcs_offset true,
     { f with buffer := p.2, closed := true })
  else (none, { f with closed := true })

/-- Model of `GCSObjFile._get_data(size, begin)` against a compliant server holding
`obj`: a range starting at or past the end yields
`416 Requested Range Not Satisfiable`, i.e. `('', True)` with the size
field untouched; otherwise the server returns the requested slice with a
`Content-Range: bytes b-e/total` header, from which the code computes
`eof = total <= begin + len(content)` and refreshes `self.size = total`.
(The `if not size` guard is never taken: `read` always passes
`self._chunksize > 0`.) -/
def getData (obj : List Nat) (size start : Nat) : List Nat × Bool × Option Nat :=
  if obj.length ≤ start then ([], true, none)
  else
    let content := (obj.drop start).take size
    (content, decide (obj.length ≤ start + content.length), some obj.length)

/-- The fetch loop of `GCSObjFile.read`: while not EOF and fewer than
`target` bytes are buffered (unconditionally when `target` is `None`),
fetch `cs` bytes at `gcs`, append them to the buffer and advance the
remote cursor.  Returns the buffer, remote cursor, eof flag and
client-tracked size. -/
def readLoop (obj : List Nat) (cs : Nat) (hcs : 0 < cs) (gcs : Nat) (b : Buffer)
    (sz : Nat) (target : Option Nat) : Buffer × Nat × Bool × Nat :=
  if (match target with | none => true | some t => decide (b.size < t)) = true then
    let g := getData obj cs gcs
    if g.2.1 then (b.write g.1, gcs + g.1.length, true, g.2.2.getD sz)
    else readLoop obj cs hcs (gcs + g.1.length) (b.write g.1) (g.2.2.getD sz) target
  else (b, gcs, false, sz)
termination_by obj.length - gcs
decreasing_by
  rename_i hfalse
  have hf : ¬(getData obj cs gcs).2.1 = true := hfalse
  simp only [getData] at hf ⊢
  by_cases hb : obj.length ≤ gcs
  · rw [if_pos hb] at hf
    simp at hf
  · rw [if_neg hb] at hf ⊢
    simp only [decide_eq_true_eq, List.length_take, List.length_drop] at hf ⊢
    omega

/-- Model of `GCSObjFile.read(size=None)` in read mode against a compliant server
holding `obj`: mode and open checks; return `''` at once when `size == 0`
or `self._eof`; otherwise run the fetch loop, consume up to `size` bytes
from the buffer and advance the user-visible offset by the amount
returned. -/
def GCSObjFile.read (f : GCSObjFile) (obj : List Nat) (size : Option Nat)
    (hcs : 0 < f.chunksize) : Except IOErr (List Nat × GCSObjFile) :=
  if f.closed then .error .closed
  else if f.mode = Mode.w then .error .modeMismatch
  else if size = some 0 ∨ f.eof = true then .ok ([], f)
  else
    let r := readLoop obj f.chunksize hcs f.gcs_offset f.buffer f.size size
    let p := r.1.read size
    .ok (p.1,
      { f with
        buffer := p.2
        gcs_offset := r.2.1
        eof := r.2.2.1
        size := r.2.2.2
        offset := f.offset + p.1.length })

/-- A 10-byte remote object (bytes 0..9). -/
def scenObj : List Nat := List.range 10

/-- A freshly opened read handle on `scenObj` with the default-sized
chunk (1 MiB > 10 bytes). -/
def scenF0 : GCSObjFile := ⟨Mode.r, 10, 0, 0, Buffer.empty, false, false, 262144⟩

/-- The state after `read(2)` on `scenF0`: 2 bytes returned, 8 bytes still
buffered, `eof` already set. -/
def scenF1 : GCSObjFile :=
  ⟨Mode.r, 10, 2, 10, ⟨[[2, 3, 4, 5, 6, 7, 8, 9]], 8⟩, true, false, 262144⟩

def scenHcs0 : 0 < scenF0.chunksize := by decide

def scenHcs1 : 0 < scenF1.chunksize := by decide

/-- An open write handle with 3 buffered bytes, 4 already sent, size 7. -/
def closeFW : GCSObjFile := ⟨Mode.w, 7, 4, 4, ⟨[[9, 8, 7]], 3⟩, false, false, 4⟩

/-- A freshly opened write handle with chunk size 4. -/
def closeGW : GCSObjFile := ⟨Mode.w, 0, 0, 0, Buffer.empty, false, false, 4⟩
/-! Lemmas about the buffer. -/

theorem bufReadLoop_spec (q : List (List Nat)) (r : Nat)
    (h : r ≤ q.flatten.length) :
    (bufReadLoop q r).1 = q.flatten.take r ∧
      (bufReadLoop q r).2.flatten = q.flatten.drop r := by
  induction q generalizing r with
  | nil =>
    cases r with
    | zero => simp [bufReadLoop]
    | succ n => simp at h
  | cons d q ih =>
    cases r with
    | zero => simp [bufReadLoop]
    | succ n =>
      simp only [bufReadLoop]
      by_cases hlt : n + 1 < d.length
      · simp only [if_pos hlt]
        constructor
        · rw [List.flatten_cons, List.take_append_of_le_length (Nat.le_of_lt hlt)]
        · rw [List.flatten_cons, List.flatten_cons,
            List.drop_append_of_le_length (Nat.le_of_lt hlt)]
      · simp only [if_neg hlt]
        have hd : d.length ≤ n + 1 := Nat.le_of_not_lt hlt
        have h' : n + 1 - d.length ≤ q.flatten.length := by
          simp only [List.flatten_cons, List.length_append] at h
          omega
        obtain ⟨h1, h2⟩ := ih (n + 1 - d.length) h'
        constructor
        · rw [h1, List.flatten_cons, List.take_append_eq_append_take,
            List.take_of_length_le hd]
        · rw [h2, List.flatten_cons, List.drop_append_eq_append_drop,
            List.drop_of_length_le hd, List.nil_append]

theorem Buffer.read_eq (b : Buffer) (o : Option Nat) :
    b.read o = ((bufReadLoop b.queue (min (o.getD b.size) b.size)).1,
      ⟨(bufReadLoop b.queue (min (o.getD b.size) b.size)).2,
        b.size - min (o.getD b.size) b.size⟩) := by
  have hsz : (match o with
      | none => b.size
      | some n => if b.size < n then b.size else n) = min (o.getD b.size) b.size := by
    cases o with
    | none => simp
    | some n =>
      simp only [Option.getD]
      by_cases h : b.size < n
      · rw [if_pos h, Nat.min_eq_right (Nat.le_of_lt h)]
      · rw [if_neg h, Nat.min_eq_left (Nat.le_of_not_lt h)]
  simp only [Buffer.read, hsz]

theorem Buffer.read_spec (b : Buffer) (o : Option Nat) (hb : b.wf) :
    (b.read o).1 = b.contents.take (min (o.getD b.size) b.size) ∧
      (b.read o).2.contents = b.contents.drop (min (o.getD b.size) b.size) ∧
      (b.read o).2.size = b.size - min (o.getD b.size) b.size ∧
      (b.read o).2.wf := by
  have hle : min (o.getD b.size) b.size ≤ b.contents.length := by
    rw [← hb]; exact Nat.min_le_right _ _
  obtain ⟨h1, h2⟩ := bufReadLoop_spec b.queue (min (o.getD b.size) b.size) hle
  rw [Buffer.read_eq]
  refine ⟨h1, h2, rfl, ?_⟩
  simp only [Buffer.wf, Buffer.contents] at h2 ⊢
  rw [h2, List.length_drop]
  have hb' : b.size = b.queue.flatten.length := hb
  omega

theorem Buffer.write_spec (b : Buffer) (d : List Nat) (hb : b.wf) :
    (b.write d).contents = b.contents ++ d ∧
      (b.write d).size = b.size + d.length ∧ (b.write d).wf := by
  unfold Buffer.write
  by_cases h : d = []
  · subst h; simp [Buffer.contents, hb]
  · rw [if_neg h]
    refine ⟨?_, rfl, ?_⟩
    · simp [Buffer.contents]
    · simp only [Buffer.wf, Buffer.contents, List.flatten_append,
        List.length_append, List.flatten_cons, List.flatten_nil,
        List.append_nil]
      have hb' : b.size = b.queue.flatten.length := hb
      omega

theorem writeAll_spec (ws : List (List Nat)) (b : Buffer) (hb : b.wf) :
    (writeAll b ws).contents = b.contents ++ ws.flatten ∧ (writeAll b ws).wf := by
  induction ws generalizing b with
  | nil => simpa [writeAll]
  | cons w ws ih =>
    obtain ⟨h1, _, h3⟩ := b.write_spec w hb
    obtain ⟨ih1, ih2⟩ := ih (b.write w) h3
    refine ⟨?_, ih2⟩
    rw [show writeAll b (w :: ws) = writeAll (b.write w) ws from rfl, ih1, h1]
    simp

theorem readAll_spec (ss : List (Option Nat)) (b : Buffer) (hb : b.wf) :
    (readAll b ss).1.flatten ++ (readAll b ss).2.contents = b.contents ∧
      (readAll b ss).2.wf := by
  induction ss generalizing b with
  | nil => simpa [readAll]
  | cons s ss ih =>
    obtain ⟨h1, h2, _, h4⟩ := b.read_spec s hb
    obtain ⟨ih1, ih2⟩ := ih (b.read s).2 h4
    refine ⟨?_, ih2⟩
    simp only [readAll, List.flatten_cons, List.append_assoc]
    rw [ih1, h2, h1, List.take_append_drop]

theorem Buffer.empty_wf : Buffer.empty.wf := rfl

theorem Buffer.read_bounds (c : Buffer) (n : Nat) (hc : c.wf) :
    ((c.read (some n)).1).length = min n c.size ∧
      (c.size = 0 → (c.read (some n)).1 = [] ∧ (c.read none).1 = []) := by
  obtain ⟨h1, _, _, _⟩ := c.read_spec (some n) hc
  obtain ⟨g1, _, _, _⟩ := c.read_spec none hc
  constructor
  · rw [h1, List.length_take, ← hc]
    simp only [Option.getD]
    omega
  · intro h0
    constructor
    · rw [h1]; simp [h0]
    · rw [g1]; simp [h0]

/-- C1: byte-accumulator round trip.  For every sequence of `_Buffer.write`
calls (empty writes being no-ops) followed by an arbitrary sequence of
reads: (1) the concatenation of the bytes returned by the reads followed by
the remaining buffered bytes equals the concatenation of all written
bytes (no loss or duplication, even across span boundaries); (2) the
concatenation of the reads is the corresponding prefix of the writes;
(3) `read()` with no size returns all buffered bytes and (4) leaves
`len()` at 0; (5) a read never returns more bytes than requested nor more
than are buffered, and a read on an empty buffer returns empty output. -/
theorem buffer_roundtrip (ws : List (List Nat)) (rs : List (Option Nat)) (n : Nat) :
    (readAll (writeAll Buffer.empty ws) rs).1.flatten
        ++ (readAll (writeAll Buffer.empty ws) rs).2.contents = ws.flatten
    ∧ (readAll (writeAll Buffer.empty ws) rs).1.flatten
        = ws.flatten.take ((readAll (writeAll Buffer.empty ws) rs).1.flatten).length
    ∧ ((writeAll Buffer.empty ws).read none).1 = ws.flatten
    ∧ ((writeAll Buffer.empty ws).read none).2.size = 0
    ∧ (((readAll (writeAll Buffer.empty ws) rs).2.read (some n)).1).length
        = min n (readAll (writeAll Buffer.empty ws) rs).2.size
    ∧ ((readAll (writeAll Buffer.empty ws) rs).2.size = 0 →
        ((readAll (writeAll Buffer.empty ws) rs).2.read (some n)).1 = []
        ∧ ((readAll (writeAll Buffer.empty ws) rs).2.read none).1 = []) := by
  obtain ⟨hw1, hw2⟩ := writeAll_spec ws Buffer.empty Buffer.empty_wf
  have hwc : (writeAll Buffer.empty ws).contents = ws.flatten := by
    rw [hw1]; rfl
  obtain ⟨hr1, hr2⟩ := readAll_spec rs (writeAll Buffer.empty ws) hw2
  obtain ⟨hb1, hb2⟩ := Buffer.read_bounds (readAll (writeAll Buffer.empty ws) rs).2 n hr2
  have hmain : (readAll (writeAll Buffer.empty ws) rs).1.flatten
      ++ (readAll (writeAll Buffer.empty ws) rs).2.contents = ws.flatten := by
    rw [hr1, hwc]
  refine ⟨hmain, ?_, ?_, ?_, hb1, hb2⟩
  · rw [← hmain, List.take_left]
  · obtain ⟨g1, _, _, _⟩ := (writeAll Buffer.empty ws).read_spec none hw2
    have hsz : (writeAll Buffer.empty ws).size
        = (writeAll Buffer.empty ws).contents.length := hw2
    rw [g1]
    simp only [Option.getD, Nat.min_self]
    rw [hsz, List.take_length, hwc]
  · obtain ⟨_, _, g3, _⟩ := (writeAll Buffer.empty ws).read_spec none hw2
    rw [g3]
    simp

/-- Witness for C1: after writing `"AAAA"`, `"BBBB"` and reading 2, 4 and
the rest, the buffer is empty and further reads return empty output. -/
theorem buffer_roundtrip_witness :
    (readAll (writeAll Buffer.empty [[65, 65, 65, 65], [66, 66, 66, 66]])
        [some 2, some 4, none]).2.size = 0
    ∧ ((readAll (writeAll Buffer.empty [[65, 65, 65, 65], [66, 66, 66, 66]])
        [some 2, some 4, none]).2.read (some 3)).1 = []
    ∧ ((readAll (writeAll Buffer.empty [[65, 65, 65, 65], [66, 66, 66, 66]])
        [some 2, some 4, none]).2.read none).1 = [] :=
  ⟨by decide,
    (buffer_roundtrip [[65, 65, 65, 65], [66, 66, 66, 66]]
      [some 2, some 4, none] 3).2.2.2.2.2 (by decide)⟩

/-- For a persistently failing operation whose codes are retryable, the
loop performs all retries: starting at retry counter `n` with the matching
delay value, it sleeps `delaySeq p (n+1), …, delaySeq p max_retries` (plus
jitter when randomized), raises the last error and makes
`max_retries - n + 1` calls. -/
theorem retryGo_exhaust {α : Type} (p : RetryParams) (codes : List Nat)
    (c : Nat → Nat) (jitter : Nat → Nat) (k : Nat) :
    ∀ n, p.max_retries = n + k → (∀ i, i < p.max_retries → c i ∈ codes) →
    retryGo p codes (fun i => (Except.error (c i) : Except Nat α)) jitter n
        (delaySeq p n)
      = (.error (c p.max_retries),
         (List.range k).map
           (fun i => delaySeq p (n + i + 1)
             + (if p.randomize then jitter (n + i + 1) else 0)),
         k + 1) := by
  induction k with
  | zero =>
    intro n hn _
    have hn' : p.max_retries = n := by omega
    subst hn'
    unfold retryGo
    simp
  | succ k ih =>
    intro n hn hc
    have hlt : n < p.max_retries := by omega
    unfold retryGo
    have hguard : ¬(p.max_retries ≤ n ∨ c n ∉ codes) := by
      push_neg
      exact ⟨by omega, hc n hlt⟩
    simp only [if_neg hguard]
    have hd : (if delaySeq p n < p.max_backoff
        then min p.max_backoff (p.backoff_factor ^ n * p.initial_delay)
        else delaySeq p n) = delaySeq p (n + 1) := by
      rw [delaySeq]
    rw [hd, ih (n + 1) (by omega) hc]
    simp only [Prod.mk.injEq, List.range_succ_eq_map, List.map_cons,
      List.map_map, List.cons.injEq]
    refine ⟨trivial, ⟨trivial, ?_⟩, trivial⟩
    apply List.map_congr_left
    intro i _
    simp only [Function.comp]
    have h' : n + 1 + i + 1 = n + (i + 1) + 1 := by omega
    rw [h']

/-- Closed form of the delay sequence for
`RetryParams(initial_delay=1, backoff_factor=2, max_backoff=4,
randomize=False)`: the `n+1`-st delay is `min 4 (2^n)`. -/
theorem delaySeq_closed (m n : Nat) :
    delaySeq ⟨m, 1, 4, 2, false⟩ (n + 1) = min 4 (2 ^ n) := by
  induction n with
  | zero => simp [delaySeq]
  | succ n ih =>
    rw [delaySeq.eq_2]
    simp only [ih]
    by_cases h : min 4 (2 ^ n) < 4
    · rw [if_pos h]
      simp [Nat.mul_comm]
    · rw [if_neg h]
      have h4 : (4 : Nat) ≤ 2 ^ n := by
        rcases Nat.lt_or_ge (2 ^ n) 4 with h' | h'
        · exact absurd (by omega : min 4 (2 ^ n) < 4) h
        · exact h'
      have h4' : (4 : Nat) ≤ 2 ^ (n + 1) := le_trans h4 (Nat.pow_le_pow_right (by omega) (by omega))
      omega

/-- C3: backoff delay sequence.  Under
`RetryParams(initial_delay=1, backoff_factor=2, max_backoff=4,
randomize=False)` and an operation that persistently raises a retryable
transient HTTP error (500), the sleeps are exactly `1, 2, 4, 4, 4` for
`max_retries = 5`, and in general the `i`-th sleep is `delaySeq` at `i+1`;
the delay sequence is monotonically non-decreasing, never exceeds
`max_backoff = 4`, and once it reaches 4 every later delay equals 4. -/
theorem backoff_delay_sequence (m n : Nat) :
    (retryCall (some ⟨5, 1, 4, 2, false⟩) DEFAULT_RETRY_CODES
        (fun _ => (Except.error 500 : Except Nat Unit)) (fun _ => 0)).2.1
      = [1, 2, 4, 4, 4]
    ∧ (retryCall (some ⟨m, 1, 4, 2, false⟩) DEFAULT_RETRY_CODES
        (fun _ => (Except.error 500 : Except Nat Unit)) (fun _ => 0)).2.1
      = (List.range m).map (fun i => delaySeq ⟨m, 1, 4, 2, false⟩ (i + 1))
    ∧ delaySeq ⟨m, 1, 4, 2, false⟩ n ≤ delaySeq ⟨m, 1, 4, 2, false⟩ (n + 1)
    ∧ delaySeq ⟨m, 1, 4, 2, false⟩ (n + 1) ≤ 4
    ∧ (delaySeq ⟨m, 1, 4, 2, false⟩ (n + 1) = 4 →
        delaySeq ⟨m, 1, 4, 2, false⟩ (n + 2) = 4) := by
  have hgen : ∀ m' : Nat,
      (retryCall (some ⟨m', 1, 4, 2, false⟩) DEFAULT_RETRY_CODES
          (fun _ => (Except.error 500 : Except Nat Unit)) (fun _ => 0)).2.1
        = (List.range m').map (fun i => delaySeq ⟨m', 1, 4, 2, false⟩ (i + 1)) := by
    intro m'
    have h := retryGo_exhaust (α := Unit) ⟨m', 1, 4, 2, false⟩ DEFAULT_RETRY_CODES
      (fun _ => 500) (fun _ => 0) m' 0 (by simp)
      (fun i _ => by simp [DEFAULT_RETRY_CODES])
    simp only [retryCall]
    rw [show delaySeq ⟨m', 1, 4, 2, false⟩ 0 = 0 from rfl] at h
    rw [h]
    simp
  refine ⟨?_, hgen m, ?_, ?_, ?_⟩
  · rw [hgen 5]
    have h5 : ∀ i, i < 5 → delaySeq ⟨5, 1, 4, 2, false⟩ (i + 1) = min 4 (2 ^ i) :=
      fun i _ => delaySeq_closed 5 i
    simp [List.range_succ, h5]
  · cases n with
    | zero => simp [delaySeq]
    | succ n =>
      rw [delaySeq_closed, delaySeq_closed]
      have : (2 : Nat) ^ n ≤ 2 ^ (n + 1) := Nat.pow_le_pow_right (by omega) (by omega)
      omega
  · rw [delaySeq_closed]; omega
  · intro h
    rw [delaySeq_closed] at h
    rw [delaySeq_closed]
    have : (2 : Nat) ^ n ≤ 2 ^ (n + 1) := Nat.pow_le_pow_right (by omega) (by omega)
    omega

/-- Witness for C3: the delay at retry 3 has reached `max_backoff = 4` and
the delay at retry 4 still equals 4. -/
theorem backoff_delay_sequence_witness :
    delaySeq ⟨5, 1, 4, 2, false⟩ 3 = 4 ∧ delaySeq ⟨5, 1, 4, 2, false⟩ 4 = 4 :=
  ⟨by decide, (backoff_delay_sequence 5 2).2.2.2.2 (by decide)⟩

/-- C4: retry exhaustion.  For a policy with `max_retries = m` and an
operation that raises a retryable transient HTTP error on every attempt,
the operation is invoked exactly `m + 1` times and the exception finally
raised is the last error raised by the operation, unchanged. -/
theorem retry_exhaustion {α : Type} (m : Nat) (p : RetryParams)
    (hp : p.max_retries = m) (c : Nat → Nat)
    (h : ∀ i, i < m → c i ∈ DEFAULT_RETRY_CODES) (jitter : Nat → Nat) :
    (retryCall (some p) DEFAULT_RETRY_CODES
        (fun i => (Except.error (c i) : Except Nat α)) jitter).1
      = .error (c m)
    ∧ (retryCall (some p) DEFAULT_RETRY_CODES
        (fun i => (Except.error (c i) : Except Nat α)) jitter).2.2 = m + 1 := by
  subst hp
  have hres := retryGo_exhaust (α := α) p DEFAULT_RETRY_CODES c jitter
    p.max_retries 0 (by simp) h
  simp only [retryCall]
  rw [show delaySeq p 0 = 0 from rfl] at hres
  rw [hres]
  exact ⟨rfl, rfl⟩

/-- Witness for C4 at `max_retries = 2` and a permanently failing 500:
3 invocations, final error 500. -/
theorem retry_exhaustion_witness :
    (retryCall (some ⟨2, 1, 32, 2, false⟩) DEFAULT_RETRY_CODES
        (fun _ => (Except.error 500 : Except Nat Unit)) (fun _ => 0)).1
      = .error 500
    ∧ (retryCall (some ⟨2, 1, 32, 2, false⟩) DEFAULT_RETRY_CODES
        (fun _ => (Except.error 500 : Except Nat Unit)) (fun _ => 0)).2.2
      = 2 + 1 :=
  retry_exhaustion 2 ⟨2, 1, 32, 2, false⟩ rfl (fun _ => 500)
    (fun _ _ => by show (500 : Nat) ∈ DEFAULT_RETRY_CODES; decide) (fun _ => 0)

/-- C5: no retry on fatal or non-allow-listed codes, and a `None` policy
disables retries.  An operation raising an HTTP error whose code is not in
the allow-list is invoked exactly once and the error propagates with no
sleeps, regardless of `max_retries`; with policy `None`, the first failure
of any kind propagates immediately after a single invocation. -/
theorem no_retry_fatal {α : Type} (p : RetryParams) (codes : List Nat)
    (c c2 : Nat) (jitter : Nat → Nat) (op op2 : Nat → Except Nat α)
    (hop : op 0 = .error c) (hc : c ∉ codes) (hop2 : op2 0 = .error c2) :
    retryCall (some p) codes op jitter = (.error c, [], 1)
    ∧ retryCall none codes op2 jitter = (.error c2, [], 1) := by
  constructor
  · simp only [retryCall]
    unfold retryGo
    rw [hop]
    simp [hc]
  · simp only [retryCall]
    rw [hop2]

/-- Witness for C5: a 404 (fatal, not in the allow-list) is attempted once
under a live policy; a 500 under policy `None` is attempted once. -/
theorem no_retry_fatal_witness :
    retryCall (some ⟨5, 1, 32, 2, true⟩) DEFAULT_RETRY_CODES
        (fun _ => (Except.error 404 : Except Nat Unit)) (fun _ => 7)
      = (.error 404, [], 1)
    ∧ retryCall none DEFAULT_RETRY_CODES
        (fun _ => (Except.error 500 : Except Nat Unit)) (fun _ => 7)
      = (.error 500, [], 1) :=
  no_retry_fatal ⟨5, 1, 32, 2, true⟩ DEFAULT_RETRY_CODES 404 500 (fun _ => 7)
    (fun _ => .error 404) (fun _ => .error 500) rfl (by decide) rfl

/-- C7: lazy hydration state machine.  On a never-fetched instance not
marked nonexistent, an access to an unknown attribute performs exactly one
fetch; after a successful fetch (`_data_retrieved = True`) or a not-found
result (`_exists = False`), any access to a still-unknown attribute raises
an attribute error with zero fetch calls (so two consecutive accesses
cause one fetch, not two); a fetch failure other than not-found propagates
its code unchanged and leaves the state unchanged, so the next access
fetches again. -/
theorem lazy_hydration (f : Fillable) (k : String) (data : List (String × Val))
    (c : Nat) (fetch2 : FetchRes)
    (hk : f.lookupAttr k = none) (hdr : f.data_retrieved = false)
    (hex : f.existsF ≠ some false) :
    ((f.getAttr k (.success data)).2.2 = 1
      ∧ (f.getAttr k (.success data)).2.1.data_retrieved = true
      ∧ (f.getAttr k (.success data)).2.1.existsF = some true)
    ∧ (∀ k', (f.getAttr k (.success data)).2.1.lookupAttr k' = none →
        (f.getAttr k (.success data)).2.1.getAttr k' fetch2
          = (.attrError, (f.getAttr k (.success data)).2.1, 0))
    ∧ (∀ (g : Fillable) (k' : String),
        g.lookupAttr k' = none → (g.data_retrieved = true ∨ g.existsF = some false) →
        g.getAttr k' fetch2 = (.attrError, g, 0))
    ∧ (f.getAttr k .notFound = (.attrError, { f with existsF := some false }, 1)
      ∧ (∀ k', ({ f with existsF := some false } : Fillable).lookupAttr k' = none →
          ({ f with existsF := some false } : Fillable).getAttr k' fetch2
            = (.attrError, { f with existsF := some false }, 0)))
    ∧ (f.getAttr k (.httpFail c) = (.raised c, f, 1)
      ∧ (f.getAttr k (.httpFail c)).2.1.getAttr k fetch2
        = f.getAttr k fetch2
      ∧ (f.getAttr k fetch2).2.2 = 1) := by
  have hguard : ¬(f.data_retrieved = true ∨ f.existsF = some false) := by
    rw [hdr]
    simp [hex]
  have hstep : ∀ fr : FetchRes, f.getAttr k fr
      = (match fr with
        | .notFound => (.attrError, { f with existsF := some false }, 1)
        | .httpFail c' => (.raised c', f, 1)
        | .success d =>
          let f' := Fillable.fillWithData { f with existsF := some true } d
          match f'.lookupAttr k with
          | some v => (.ok v, f', 1)
          | none => (.attrError, f', 1)) := by
    intro fr
    unfold Fillable.getAttr
    rw [hk]
    simp only [if_neg hguard]
  have hfetched : ∀ (g : Fillable) (k' : String),
      g.lookupAttr k' = none → (g.data_retrieved = true ∨ g.existsF = some false) →
      g.getAttr k' fetch2 = (.attrError, g, 0) := by
    intro g k' hg hcond
    unfold Fillable.getAttr
    rw [hg]
    simp only [if_pos hcond]
  have hsuccg : ∀ d : List (String × Val), f.getAttr k (.success d)
      = match (Fillable.fillWithData { f with existsF := some true } d).lookupAttr k with
        | some v => (.ok v, Fillable.fillWithData { f with existsF := some true } d, 1)
        | none => (.attrError, Fillable.fillWithData { f with existsF := some true } d, 1) :=
    fun d => hstep (.success d)
  have hstate : (f.getAttr k (.success data)).2.1
      = Fillable.fillWithData { f with existsF := some true } data := by
    rw [hsuccg data]
    cases (Fillable.fillWithData { f with existsF := some true } data).lookupAttr k <;>
      rfl
  have hcount : (f.getAttr k (.success data)).2.2 = 1 := by
    rw [hsuccg data]
    cases (Fillable.fillWithData { f with existsF := some true } data).lookupAttr k <;>
      rfl
  have hstate2 : (f.getAttr k (.httpFail c)).2.1 = f := by
    rw [hstep (.httpFail c)]
  refine ⟨⟨hcount, ?_, ?_⟩, ?_, hfetched, ⟨hstep .notFound, ?_⟩,
    ⟨hstep (.httpFail c), ?_, ?_⟩⟩
  · rw [hstate]; rfl
  · rw [hstate]; rfl
  · intro k' hk'
    apply hfetched _ _ hk'
    left
    rw [hstate]; rfl
  · intro k' hk'
    exact hfetched _ _ hk' (Or.inr rfl)
  · rw [hstate2]
  · cases fetch2 with
    | success d =>
      rw [hsuccg d]
      cases (Fillable.fillWithData { f with existsF := some true } d).lookupAttr k <;>
        rfl
    | notFound => rw [hstep .notFound]
    | httpFail c' => rw [hstep (.httpFail c')]

/-- Witness for C7 on a fresh instance, fetching `{"name": "x"}`. -/
theorem lazy_hydration_witness :
    Fillable.fresh.lookupAttr "name" = none
    ∧ (Fillable.fresh.getAttr "name" (.success [("name", Val.str "x")])).2.2 = 1
    ∧ (Fillable.fresh.getAttr "name"
        (.success [("name", Val.str "x")])).2.1.data_retrieved = true
    ∧ (Fillable.fresh.getAttr "name"
        (.success [("name", Val.str "x")])).2.1.existsF = some true :=
  ⟨rfl,
    (lazy_hydration Fillable.fresh "name" [("name", Val.str "x")] 400 .notFound
      rfl rfl (by simp [Fillable.fresh])).1⟩

theorem alookup_aset (l : List (String × Val)) (k : String) (v : Val) :
    alookup (aset l k v) k = some v := by
  induction l with
  | nil => simp [aset, alookup]
  | cons p t ih =>
    simp only [aset]
    by_cases h : p.1 = k
    · rw [if_pos h]
      simp [alookup]
    · rw [if_neg h]
      unfold alookup
      rw [List.find?_cons_of_neg]
      · exact ih
      · simp [h]

/-- Counterexample to C8 as stated: set `size = 1` explicitly on a fresh
instance, then access the unknown attribute `name`, with the fetch
returning `{"name": "n", "size": 2}`.  A subsequent read of `size`
observes the fetched value 2, not the originally set 1 — the fetched
value shadows the explicit one because `__getattribute__` consults
`_gcs_attrs` first. -/
theorem first_write_wins_cex :
    ((Fillable.fresh.setAttr "size" (Val.num 1)).getAttr "name"
        (.success [("name", Val.str "n"), ("size", Val.num 2)])).2.1.lookupAttr "size"
      = some (Val.num 2)
    ∧ Val.num 2 ≠ Val.num 1 := by
  refine ⟨rfl, ?_⟩
  intro h
  injection h with h'
  exact absurd h' (by decide)

/-- C8 (amended): fetch wins, not first-write-wins.  When fetched data
containing key `k` is merged by `_fill_with_data`, a subsequent read of
`k` observes the fetched (unwrapped) value, even if `k` had been
explicitly set before the fetch; the explicitly-set value survives only in
the instance `__dict__` (when `k` was not previously a fetched
attribute), where attribute lookup no longer finds it. -/
theorem fetch_overwrites (f : Fillable) (k : String) (v w : Val) :
    (Fillable.fillWithData (f.setAttr k v) [(k, w)]).lookupAttr k
      = some (unwrapVal w)
    ∧ (alookup f.gcs_attrs k = none →
        alookup (Fillable.fillWithData (f.setAttr k v) [(k, w)]).idict k = some v) := by
  constructor
  · unfold Fillable.lookupAttr
    have h1 : alookup (Fillable.fillWithData (f.setAttr k v) [(k, w)]).gcs_attrs k
        = some (unwrapVal w) := by
      show alookup (aset ((f.setAttr k v).gcs_attrs) k (unwrapVal w)) k
        = some (unwrapVal w)
      exact alookup_aset _ _ _
    rw [h1]
  · intro hg
    have hset : f.setAttr k v = { f with idict := aset f.idict k v } := by
      unfold Fillable.setAttr
      rw [hg]
      rfl
    rw [show (Fillable.fillWithData (f.setAttr k v) [(k, w)]).idict
        = (f.setAttr k v).idict from rfl, hset]
    exact alookup_aset _ _ _

/-- Witness for the amended C8 on a fresh instance: explicit `size = 1`,
fetched `size = 2`; the read observes 2 and the 1 sits in `__dict__`. -/
theorem fetch_overwrites_witness :
    alookup Fillable.fresh.gcs_attrs "size" = none
    ∧ (Fillable.fillWithData (Fillable.fresh.setAttr "size" (Val.num 1))
        [("size", Val.num 2)]).lookupAttr "size" = some (unwrapVal (Val.num 2))
    ∧ alookup (Fillable.fillWithData (Fillable.fresh.setAttr "size" (Val.num 1))
        [("size", Val.num 2)]).idict "size" = some (Val.num 1) :=
  ⟨rfl, (fetch_overwrites Fillable.fresh "size" (Val.num 1) (Val.num 2)).1,
    (fetch_overwrites Fillable.fresh "size" (Val.num 1) (Val.num 2)).2 rfl⟩

/-- C6: seek semantics.  For an open read-mode handle, `seek` computes the
target from `SEEK_SET` (absolute), `SEEK_CUR` (cursor-relative) or
`SEEK_END` (size-relative), clamps it into `[0, size]`, sets both the
user-visible cursor (returned by `tell`) and the remote fetch offset to
the clamped target, and leaves the buffer empty; `seek` on a write-mode
handle fails with a usage error. -/
theorem seek_semantics (f : GCSObjFile) (off : Int) (wh : Whence)
    (h1 : f.closed = false) (h2 : f.mode = Mode.r) :
    (∃ f', f.seek off wh = .ok f'
      ∧ f'.offset = (max (min (match wh with
          | .set => off
          | .cur => (f.offset : Int) + off
          | .endW => (f.size : Int) + off) (f.size : Int)) 0).toNat
      ∧ f'.gcs_offset = f'.offset
      ∧ f'.offset ≤ f.size
      ∧ f'.buffer.size = 0 ∧ f'.buffer.contents = []
      ∧ f'.tell = .ok f'.offset)
    ∧ (∀ g : GCSObjFile, g.closed = false → g.mode = Mode.w →
        g.seek off wh = .error IOErr.modeMismatch) := by
  have hoff : ∀ t : Int, (max (min t (f.size : Int)) 0).toNat ≤ f.size := by
    intro t
    have hmin : min t (f.size : Int) ≤ (f.size : Int) := min_le_right _ _
    omega
  constructor
  · unfold GCSObjFile.seek
    rw [h1, h2]
    simp only [Bool.false_eq_true, if_false, reduceCtorEq, if_false]
    refine ⟨_, rfl, rfl, rfl, hoff _, rfl, rfl, ?_⟩
    unfold GCSObjFile.tell
    simp [h1]
  · intro g hg1 hg2
    unfold GCSObjFile.seek
    rw [hg1, hg2]
    simp

/-- Witness for C6: seeking to 20 on a 10-byte read handle clamps to 10;
seeking a write handle errors. -/
theorem seek_semantics_witness :
    (∃ f', GCSObjFile.seek ⟨Mode.r, 10, 3, 3, ⟨[[1, 2]], 2⟩, false, false, 4⟩
        20 Whence.set = .ok f'
      ∧ f'.offset = (max (min (20 : Int) ((10 : Nat) : Int)) 0).toNat
      ∧ f'.gcs_offset = f'.offset
      ∧ f'.offset ≤ 10
      ∧ f'.buffer.size = 0 ∧ f'.buffer.contents = []
      ∧ f'.tell = .ok f'.offset)
    ∧ (∀ g : GCSObjFile, g.closed = false → g.mode = Mode.w →
        g.seek 20 Whence.set = .error IOErr.modeMismatch) :=
  seek_semantics ⟨Mode.r, 10, 3, 3, ⟨[[1, 2]], 2⟩, false, false, 4⟩ 20
    Whence.set rfl rfl

/-- The write-flush loop does nothing when fewer than `chunksize` bytes
are buffered. -/
theorem flushLoop_stop (cs : Nat) (hcs : 0 < cs) (gcs : Nat) (b : Buffer)
    (h : b.size < cs) : flushLoop cs hcs gcs b = ([], b, gcs) := by
  unfold flushLoop
  rw [dif_neg (by omega)]

theorem bufReadLoop_zero (q : List (List Nat)) : bufReadLoop q 0 = ([], q) := by
  cases q <;> rfl

/-- A read from an empty buffer returns no bytes. -/
theorem Buffer.read_atz (b : Buffer) (o : Option Nat) (h : b.size = 0) :
    (b.read o).1 = [] := by
  rw [Buffer.read_eq, h]
  simp [bufReadLoop_zero]

/-- One pass of the write-flush loop on a buffer holding exactly one full
chunk: the chunk is sent at the current offset and the buffer is drained. -/
theorem flushLoop_one (cs : Nat) (hcs : 0 < cs) (gcs : Nat) (data : List Nat)
    (hd : data.length = cs) :
    flushLoop cs hcs gcs ⟨[data], data.length⟩
      = ([(gcs, data)],
         ((⟨[data], data.length⟩ : Buffer).read (some cs)).2,
         gcs + data.length) := by
  have hwfb : (⟨[data], data.length⟩ : Buffer).wf := by
    simp [Buffer.wf, Buffer.contents]
  obtain ⟨hp1, _, hp3, _⟩ :=
    (⟨[data], data.length⟩ : Buffer).read_spec (some cs) hwfb
  have hp1' : ((⟨[data], data.length⟩ : Buffer).read (some cs)).1 = data := by
    rw [hp1]
    simp only [Option.getD]
    show (Buffer.contents ⟨[data], data.length⟩).take (min cs data.length) = data
    rw [hd, Nat.min_self]
    show ([data].flatten).take cs = data
    rw [← hd]
    simp
  have hp3' : ((⟨[data], data.length⟩ : Buffer).read (some cs)).2.size = 0 := by
    rw [hp3]
    simp only [Option.getD]
    show data.length - min cs data.length = 0
    omega
  rw [flushLoop]
  rw [dif_pos (by show cs ≤ data.length; omega)]
  simp only [hp1']
  rw [flushLoop_stop cs hcs _ _ (by rw [hp3']; omega)]

/-- C2: finalize on close.  `close()` on an open write-mode handle sends
all remaining buffered bytes (possibly zero) as the final chunk and marks
the handle closed: with an empty buffer it still issues the zero-byte
finalize `bytes */<total>` with empty body expecting 200; otherwise it
issues `bytes <gcs>-<gcs+len-1>/<total>` with the buffered bytes expecting
200.  In particular, after a write of exactly one chunk (one non-final 308
send, buffer left empty), the subsequent `close()` still issues the
zero-byte finalize — it is never skipped. -/
theorem close_finalize (f : GCSObjFile) (h1 : f.closed = false)
    (h2 : f.mode = Mode.w) (hwf : f.buffer.wf)
    (g : GCSObjFile) (data : List Nat) (hg1 : g.closed = false)
    (hg2 : g.mode = Mode.w) (hgb : g.buffer = Buffer.empty) (hgsz : g.size = 0)
    (hgo : g.gcs_offset = 0) (hcs : 0 < g.chunksize)
    (hd : data.length = g.chunksize) :
    (f.close.2.closed = true
      ∧ f.close.1 = some (if f.buffer.contents = []
          then ⟨CRange.starTotal f.size, [], 200⟩
          else ⟨CRange.full f.gcs_offset
                  (f.gcs_offset + f.buffer.contents.length - 1) (some f.size),
                f.buffer.contents, 200⟩))
    ∧ (∃ f', g.write data hcs
          = .ok ([⟨CRange.full 0 (g.chunksize - 1) none, data, 308⟩], f')
        ∧ f'.buffer.size = 0
        ∧ f'.close.1 = some ⟨CRange.starTotal g.chunksize, [], 200⟩
        ∧ f'.close.2.closed = true) := by
  have hclose : ∀ h : GCSObjFile, h.closed = false → h.mode = Mode.w →
      h.close = (sendData h.size (h.buffer.read none).1 h.gcs_offset true,
        { h with buffer := (h.buffer.read none).2, closed := true }) := by
    intro h hh1 hh2
    unfold GCSObjFile.close
    rw [hh1, hh2]
    simp
  constructor
  · obtain ⟨hr1, _, _, _⟩ := f.buffer.read_spec none hwf
    have hall : (f.buffer.read none).1 = f.buffer.contents := by
      rw [hr1]
      simp only [Option.getD, Nat.min_self]
      rw [hwf, List.take_length]
    rw [hclose f h1 h2]
    refine ⟨rfl, ?_⟩
    by_cases hc : f.buffer.contents = []
    · rw [if_pos hc]
      show sendData f.size (f.buffer.read none).1 f.gcs_offset true = _
      rw [hall, hc]
      rfl
    · rw [if_neg hc]
      show sendData f.size (f.buffer.read none).1 f.gcs_offset true = _
      rw [hall]
      unfold sendData
      rw [if_neg (by simp [hc]), if_neg hc]
      simp
  · have hdata : data ≠ [] := by
      intro h0
      rw [h0] at hd
      simp at hd
      omega
    have hb0 : Buffer.empty.write data = ⟨[data], data.length⟩ := by
      simp [Buffer.write, Buffer.empty, hdata]
    have hp3' : ((⟨[data], data.length⟩ : Buffer).read (some g.chunksize)).2.size
        = 0 := by
      obtain ⟨_, _, hp3, _⟩ :=
        (⟨[data], data.length⟩ : Buffer).read_spec (some g.chunksize)
          (by simp [Buffer.wf, Buffer.contents])
      rw [hp3]
      simp only [Option.getD]
      show data.length - min g.chunksize data.length = 0
      omega
    have hsend : sendData (0 + data.length) data 0 false
        = some ⟨CRange.full 0 (g.chunksize - 1) none, data, 308⟩ := by
      unfold sendData
      rw [if_neg (by simp [hdata]), if_neg hdata]
      simp [hd]
    unfold GCSObjFile.write
    rw [hg1, hg2]
    simp only [Bool.false_eq_true, if_false, reduceCtorEq, if_false]
    rw [hgb, hgo, hgsz, hb0, flushLoop_one g.chunksize hcs 0 data hd]
    simp only [List.filterMap_cons, List.filterMap_nil, hsend]
    refine ⟨_, rfl, ?_, ?_, ?_⟩
    · exact hp3'
    · rw [hclose _ rfl rfl]
      show sendData (0 + data.length) (((⟨[data], data.length⟩ : Buffer).read
          (some g.chunksize)).2.read none).1 (0 + data.length) true = _
      rw [Buffer.read_atz _ none hp3']
      unfold sendData
      simp [hd]
    · rw [hclose _ rfl rfl]

/-- Witness for C2: closing a handle with 3 buffered bytes issues the
final data chunk; writing exactly one 4-byte chunk to a fresh 4-byte-chunk
handle sends one non-final chunk, leaves the buffer empty, and close still
issues the zero-byte finalize. -/
theorem close_finalize_witness :
    (closeFW.close.2.closed = true
      ∧ closeFW.close.1 = some (if closeFW.buffer.contents = []
          then ⟨CRange.starTotal closeFW.size, [], 200⟩
          else ⟨CRange.full closeFW.gcs_offset
                  (closeFW.gcs_offset + closeFW.buffer.contents.length - 1)
                  (some closeFW.size),
                closeFW.buffer.contents, 200⟩))
    ∧ (∃ f', closeGW.write [1, 2, 3, 4] (by decide)
          = .ok ([⟨CRange.full 0 (closeGW.chunksize - 1) none,
                   [1, 2, 3, 4], 308⟩], f')
        ∧ f'.buffer.size = 0
        ∧ f'.close.1 = some ⟨CRange.starTotal closeGW.chunksize, [], 200⟩
        ∧ f'.close.2.closed = true) :=
  close_finalize closeFW rfl rfl (by decide) closeGW [1, 2, 3, 4]
    rfl rfl rfl rfl rfl (by decide) (by decide)

/-- Counterexample to C9 as stated: a chunksize of `0` does NOT fail
construction — `chunksize or DEFAULT_BLOCK_SIZE` treats `0` as falsy and
substitutes the default, which passes the assert; and a negative exact
multiple of `BLOCK_MULTIPLE` also passes the assert, since Python's `%`
with a positive modulus returns `0` for negative multiples. -/
theorem chunksize_validation_cex :
    initChunksize (some 0) = .ok DEFAULT_BLOCK_SIZE
    ∧ initChunksize (some (-BLOCK_MULTIPLE)) = .ok (-BLOCK_MULTIPLE) := by
  constructor <;> rfl

/-- C9 (amended): a chunksize of `None` or `0` is replaced by
`DEFAULT_BLOCK_SIZE` and accepted; any other chunksize fails the
`AssertionError` exactly when it is not an integer multiple of
`BLOCK_MULTIPLE` (so positive non-multiples are rejected, while negative
exact multiples are accepted). -/
theorem chunksize_validation_amended (c : Int) :
    initChunksize none = .ok DEFAULT_BLOCK_SIZE
    ∧ initChunksize (some 0) = .ok DEFAULT_BLOCK_SIZE
    ∧ (c ≠ 0 →
        (initChunksize (some c) = .error () ↔ ¬ c % BLOCK_MULTIPLE = 0)) := by
  refine ⟨rfl, rfl, ?_⟩
  intro hc
  unfold initChunksize
  simp only []
  rw [if_neg hc]
  by_cases h : c % BLOCK_MULTIPLE = 0
  · rw [if_pos h]
    simp [h]
  · rw [if_neg h]
    simp [h]

/-- Witness for the amended C9: `262145` (a positive non-multiple) is
rejected. -/
theorem chunksize_validation_witness :
    (262145 : Int) ≠ 0
    ∧ (initChunksize (some 262145) = .error ()
        ↔ ¬ (262145 : Int) % BLOCK_MULTIPLE = 0) :=
  ⟨by decide, (chunksize_validation_amended 262145).2.2 (by decide)⟩

/-- C10: EOF short-circuit.  Once `_eof` is set on an open read-mode
handle, every `read(size)` returns empty immediately and leaves the state
unchanged — even when the buffer still holds unconsumed bytes; since the
state is unchanged, those bytes are never returned by any later read.
The situation is reachable: `read(2)` on a 10-byte object (`scenF0`)
buffers all 10 bytes in one chunk fetch, returns 2 of them, and sets
`_eof` with 8 bytes still buffered (`scenF1`); a subsequent read returns
empty despite the buffered bytes. -/
theorem eof_short_circuit (obj : List Nat) (f : GCSObjFile) (size : Option Nat)
    (hcs : 0 < f.chunksize) (h1 : f.closed = false) (h2 : f.mode = Mode.r)
    (he : f.eof = true) :
    f.read obj size hcs = .ok ([], f)
    ∧ scenF0.read scenObj (some 2) scenHcs0 = .ok ([0, 1], scenF1)
    ∧ scenF1.eof = true ∧ scenF1.buffer.size = 8
    ∧ scenF1.read scenObj size scenHcs1 = .ok ([], scenF1) := by
  have hshort : ∀ (g : GCSObjFile) (o : List Nat) (s : Option Nat)
      (hg : 0 < g.chunksize), g.closed = false → g.mode = Mode.r →
      g.eof = true → g.read o s hg = .ok ([], g) := by
    intro g o s hg hg1 hg2 hge
    unfold GCSObjFile.read
    rw [hg1, hg2, hge]
    simp
  have hl : readLoop scenObj scenF0.chunksize scenHcs0 scenF0.gcs_offset
      scenF0.buffer scenF0.size (some 2)
      = (⟨[[0, 1, 2, 3, 4, 5, 6, 7, 8, 9]], 10⟩, 10, true, 10) := by
    rw [readLoop]
    decide
  refine ⟨hshort f obj size hcs h1 h2 he, ?_, rfl, rfl,
    hshort scenF1 scenObj size scenHcs1 rfl rfl rfl⟩
  unfold GCSObjFile.read
  rw [show scenF0.closed = false from rfl, show scenF0.mode = Mode.r from rfl,
    show scenF0.eof = false from rfl]
  simp only [Bool.false_eq_true, if_false, reduceCtorEq, false_or,
    Option.some.injEq, OfNat.ofNat_ne_zero]
  rw [hl]
  rfl

/-- Witness for C10 at the reachable state `scenF1`: `eof` set with 8
bytes still buffered, and a read of 5 returns nothing. -/
theorem eof_short_circuit_witness :
    scenF1.read scenObj (some 5) scenHcs1 = .ok ([], scenF1)
    ∧ scenF1.buffer.size = 8 :=
  ⟨(eof_short_circuit scenObj scenF1 (some 5) scenHcs1 rfl rfl rfl).1,
    rfl⟩
end GcsClient
